import Mathlib

/-!
Verification development for the stable-study ingestion pipeline implemented in
`orthanc.routes copy 7.js`.  The route file is translated into a shallow Lean
embedding: JavaScript string operations become explicit functions over
`List Char`, the Mongo-backed document stores become lists of records threaded
through the resolver and upserter functions, the Orthanc archive becomes an
environment record of responses, and the in-memory job queue becomes a state
machine driven by an event list.  All definitions are executable so that
concrete runs of the pipeline can be evaluated inside proofs.
-/

namespace StableStudy

/-! ## JavaScript string primitives

The route manipulates strings with `trim`, `split('^')`, `toUpperCase`,
`replace(/_/g, ' ')`, `replace(/\s+/g, ...)` and `includes('^')`.  These are
modelled character-list by character-list so that every definition reduces in
the kernel. -/

/-- JS truthiness of a possibly-absent string value: `undefined` and the empty
string are falsy, every other string is truthy. -/
def strTruthy : Option String → Bool
  | none => false
  | some s => s != ""

/-- JS `a || b` on a possibly-absent string: returns `a` when truthy, else `b`. -/
def jsOr (a : Option String) (b : String) : String :=
  if strTruthy a then a.getD "" else b

/-- JS `String.prototype.trim` on a character list: strip leading and trailing
whitespace. -/
def jsTrimList (l : List Char) : List Char :=
  ((l.dropWhile Char.isWhitespace).reverse.dropWhile Char.isWhitespace).reverse

/-- JS `String.prototype.trim`. -/
def jsTrim (s : String) : String := ⟨jsTrimList s.data⟩

/-- JS `String.prototype.split(c)` for a single-character separator: splitting
`"a^b^"` on `'^'` yields `["a", "b", ""]` and splitting `""` yields `[""]`. -/
def splitChar (c : Char) : List Char → List (List Char)
  | [] => [[]]
  | a :: rest =>
    match splitChar c rest with
    | [] => [[a]]
    | h :: t => if a = c then [] :: h :: t else (a :: h) :: t

/-- Replace every maximal run of characters satisfying `p` by the single
character `rep`; this is JS `replace(/p+/g, rep)` for a character class `p`. -/
def collapseRuns (p : Char → Bool) (rep : Char) : List Char → List Char
  | [] => []
  | [a] => if p a then [rep] else [a]
  | a :: b :: rest =>
    if p a then
      (if p b then collapseRuns p rep (b :: rest)
       else rep :: collapseRuns p rep (b :: rest))
    else a :: collapseRuns p rep (b :: rest)

/-- JS `String.prototype.toUpperCase` restricted to ASCII, applied per
character. -/
def jsToUpper (s : String) : String := ⟨s.data.map Char.toUpper⟩

/-- JS `String.prototype.toLowerCase` restricted to ASCII, applied per
character. -/
def jsToLower (s : String) : String := ⟨s.data.map Char.toLower⟩

/-- JS `String.prototype.includes('^')`. -/
def containsCaret (s : String) : Bool := s.data.contains '^'

/-- JS `Array.prototype.join(' ')` for strings. -/
def joinSpace : List String → String
  | [] => ""
  | [x] => x
  | x :: xs => x ++ " " ++ joinSpace xs

/-! ## Person-name parsing (`processDicomPersonName`, lines 122-180)

A DICOM person-name field is up to five `^`-separated components
(Family^Given^Middle^Prefix^Suffix).  The JS function takes any value; a
missing field or a non-string is handled by the first guard, which also
captures the empty string because `""` is falsy in JS. -/

/-- Result record of `processDicomPersonName`. -/
structure NameInfo where
  fullName : String
  firstName : String
  lastName : String
  middleName : String
  prefixName : String
  nameSuffix : String
  originalDicomFormat : String
  formattedForDisplay : String
deriving Repr, DecidableEq

/-- `processDicomPersonName(dicomNameField)`.  The input is `none` for a tag
set without the field; JS non-string inputs take the same first branch and are
not separately modelled. -/
def processDicomPersonName (dicomNameField : Option String) : NameInfo :=
  if !(strTruthy dicomNameField) then
    { fullName := "Unknown Patient", firstName := "", lastName := "Unknown",
      middleName := "", prefixName := "", nameSuffix := "",
      originalDicomFormat := jsOr dicomNameField "",
      formattedForDisplay := "Unknown Patient" }
  else
    let nameString := jsTrim (dicomNameField.getD "")
    if nameString == "" || nameString == "^" || nameString == "^^^" then
      { fullName := "Anonymous Patient", firstName := "", lastName := "Anonymous",
        middleName := "", prefixName := "", nameSuffix := "",
        originalDicomFormat := nameString,
        formattedForDisplay := "Anonymous Patient" }
    else
      let parts := splitChar '^' nameString.data
      let familyName := jsTrim ⟨parts.getD 0 []⟩
      let givenName := jsTrim ⟨parts.getD 1 []⟩
      let middleName := jsTrim ⟨parts.getD 2 []⟩
      let prefixName := jsTrim ⟨parts.getD 3 []⟩
      let nameSuffix := jsTrim ⟨parts.getD 4 []⟩
      let nameParts :=
        ([prefixName, givenName, middleName, familyName, nameSuffix]).filter
          (fun x => x != "")
      let displayName := if nameParts.length > 0 then joinSpace nameParts
                         else "Unknown Patient"
      { fullName := displayName, firstName := givenName, lastName := familyName,
        middleName := middleName, prefixName := prefixName,
        nameSuffix := nameSuffix, originalDicomFormat := nameString,
        formattedForDisplay := displayName }

/-! ## Tag sets

A tag set is a JS object mapping tag names to string values; it is modelled as
an association list without duplicate keys.  `tagMerge a b` is the object
spread `{...a, ...b}` (keys of `b` win). -/

/-- Association-list representation of a JS tag object. -/
abbrev Tags := List (String × String)

/-- Property read `tags[k]`: `none` plays the role of `undefined`. -/
def tagGet (t : Tags) (k : String) : Option String :=
  (List.find? (fun p => p.1 == k) t).map (fun p => p.2)

/-- JS object spread `{...a, ...b}`: every key of `b`, plus the keys of `a`
not shadowed by `b`. -/
def tagMerge (a b : Tags) : Tags :=
  List.filter (fun p => (tagGet b p.1).isNone) a ++ b

/-- `Object.keys(t).length === 0`. -/
def tagsIsEmpty (t : Tags) : Bool := List.isEmpty t

/-! ## Patient resolution (`findOrCreatePatientFromTags`, lines 223-287)

Patients live in a Mongo collection; the store is a list of documents in
insertion order.  `Date.now()` and the generated 8-character patient id are
nondeterministic in JS and are passed in as parameters. -/

/-- The `computed` sub-object stored on a patient. -/
structure PatientComputed where
  fullName : String := ""
  prefixName : String := ""
  nameSuffix : String := ""
  originalDicomName : String := ""
deriving Repr, DecidableEq

/-- A persisted Patient document.  `dateOfBirth` is `none` for the JS empty
string and `some raw` for the `Date` produced by `formatDicomDateToISO(raw)`;
the calendar arithmetic inside that conversion plays no role in any claim. -/
structure PatientDoc where
  mongoId : String
  mrn : String
  patientID : String
  patientNameRaw : String
  firstName : String
  lastName : String
  computed : PatientComputed := {}
  gender : String := ""
  dateOfBirth : Option String := none
  isAnonymous : Bool := false
deriving Repr, DecidableEq

/-- `Patient.findOne({ mrn: key })` where `key` may be `undefined`.  Mongoose
strips `undefined`-valued fields from a query, so `findOne({ mrn: undefined })`
is `findOne({})`, which returns the first document of the collection. -/
def patientFindOneByMrn (store : List PatientDoc) (key : Option String) :
    Option PatientDoc :=
  match key with
  | some k => store.find? (fun p => p.mrn == k)
  | none => store.head?

/-- Outcome of one patient resolution: the resolved document, the store after
any create or update, and whether a new document was inserted. -/
structure PatientResolution where
  doc : PatientDoc
  store : List PatientDoc
  createdNew : Bool
deriving Repr, DecidableEq

/-- `findOrCreatePatientFromTags(tags)` against the patient store.  `now` is
`Date.now()`; `freshMongoId` and `freshPatientID` are the generated `_id` and
8-character `patientID` used if a document is created. -/
def findOrCreatePatientFromTags (store : List PatientDoc) (now : Nat)
    (freshMongoId freshPatientID : String) (tags : Tags) : PatientResolution :=
  let patientIdDicom := tagGet tags "PatientID"
  let nameInfo := processDicomPersonName (tagGet tags "PatientName")
  let patientSex := tagGet tags "PatientSex"
  let patientBirthDate := tagGet tags "PatientBirthDate"
  if !(strTruthy patientIdDicom) && nameInfo.fullName == "" then
    match store.find? (fun p => p.mrn == "UNKNOWN_STABLE_STUDY") with
    | some u => ⟨u, store, false⟩
    | none =>
      let u : PatientDoc :=
        { mongoId := freshMongoId, mrn := "UNKNOWN_STABLE_STUDY",
          patientID := freshPatientID,
          patientNameRaw := "Unknown Patient (Stable Study)",
          firstName := "", lastName := "",
          gender := jsOr patientSex "",
          dateOfBirth := (if strTruthy patientBirthDate then patientBirthDate
                          else none),
          isAnonymous := true }
      ⟨u, store ++ [u], true⟩
  else
    match patientFindOneByMrn store patientIdDicom with
    | none =>
      let p : PatientDoc :=
        { mongoId := freshMongoId,
          mrn := (if strTruthy patientIdDicom then patientIdDicom.getD ""
                  else "ANON_" ++ toString now),
          patientID := freshPatientID,
          patientNameRaw := nameInfo.formattedForDisplay,
          firstName := nameInfo.firstName, lastName := nameInfo.lastName,
          computed := { fullName := nameInfo.formattedForDisplay,
                        prefixName := nameInfo.prefixName,
                        nameSuffix := nameInfo.nameSuffix,
                        originalDicomName := nameInfo.originalDicomFormat },
          gender := jsOr patientSex "",
          dateOfBirth := (if strTruthy patientBirthDate then patientBirthDate
                          else none) }
      ⟨p, store ++ [p], true⟩
    | some p =>
      if p.patientNameRaw != "" && containsCaret p.patientNameRaw &&
         nameInfo.formattedForDisplay != "" &&
         !(containsCaret nameInfo.formattedForDisplay) then
        let p' : PatientDoc :=
          { p with patientNameRaw := nameInfo.formattedForDisplay,
                   firstName := nameInfo.firstName,
                   lastName := nameInfo.lastName,
                   computed := { p.computed with
                                 fullName := nameInfo.formattedForDisplay,
                                 originalDicomName := nameInfo.originalDicomFormat } }
        ⟨p', store.map (fun q => if q.mrn == p.mrn then p' else q), false⟩
      else ⟨p, store, false⟩

/-! ## Lab resolution (`findOrCreateSourceLab`, lines 289-428)

Four tiers: (1) the custom DICOM tag `0011,1010` resolved by Mongo `_id` or by
identifier; (2) a heuristic over facility-describing tags; (3) the
process-wide default lab; (4) an emergency lab reachable only from a thrown
store error, which cannot occur in this pure embedding and is therefore not
modelled. -/

/-- A persisted Lab document. -/
structure LabDoc where
  mongoId : String
  name : String
  identifier : String
  isActive : Bool
  notes : String := ""
  contactPerson : String := ""
deriving Repr, DecidableEq

/-- `mongoose.Types.ObjectId.isValid`: a 24-character hex string or any
12-character string. -/
def isValidObjectId (s : String) : Bool :=
  (s.length == 24 && s.data.all (fun c =>
    (c.toNat ≥ 48 && c.toNat ≤ 57) || (c.toNat ≥ 97 && c.toNat ≤ 102) ||
    (c.toNat ≥ 65 && c.toNat ≤ 70))) || s.length == 12

/-- JS `replace(/_/g, ' ')` applied per character. -/
def underscoreToSpace (c : Char) : Char := if c == '_' then ' ' else c

/-- Lab display name derived from a heuristic source tag (line 357):
`source.trim().replace(/_/g, ' ').replace(/\s+/g, ' ')`. -/
def labNameOf (source : String) : String :=
  ⟨collapseRuns Char.isWhitespace ' '
    ((jsTrimList source.data).map underscoreToSpace)⟩

/-- Lab identifier derived from a heuristic source tag (line 358):
`labName.toUpperCase().replace(/\s+/g, '_')`. -/
def labIdentifierOf (source : String) : String :=
  ⟨collapseRuns Char.isWhitespace '_' ((labNameOf source).data.map Char.toUpper)⟩

/-- Case-insensitive exact string match, modelling the anchored
case-insensitive regex `new RegExp('^' + escapeRegex(labName) + '$', 'i')`. -/
def ciEq (a b : String) : Bool := jsToLower a == jsToLower b

/-- Outcome of one lab resolution: the resolved document, the store after any
create, and the warnings logged along the way. -/
structure LabResolution where
  doc : LabDoc
  store : List LabDoc
  warnings : List String
deriving Repr, DecidableEq

/-- The default-lab constant `DEFAULT_LAB` (lines 290-294). -/
def defaultLabName : String := "Primary Orthanc Instance (Stable Study)"

/-- Identifier of `DEFAULT_LAB`. -/
def defaultLabIdentifier : String := "ORTHANC_STABLE_SOURCE"

/-- First element of `possibleLabSources` that is a string whose trim has
length at least 3 (the loop guard on line 356). -/
def firstUsableSource : List (Option String) → Option String
  | [] => none
  | none :: rest => firstUsableSource rest
  | some s :: rest =>
    if (jsTrim s).length ≥ 3 then some s else firstUsableSource rest

/-- The fallback portion of `findOrCreateSourceLab` (lines 343-408): the
heuristic tier over `possibleLabSources`, then the default-lab tier.  Note
that the heuristic query filters on `isActive: true` while the default-lab
query does not. -/
def labFallback (store : List LabDoc) (freshId : String) (tags : Tags)
    (warnings : List String) : LabResolution :=
  let customLabId := tagGet tags "0011,1010"
  let sources := [tagGet tags "InstitutionName", tagGet tags "StationName",
                  tagGet tags "Manufacturer", tagGet tags "ManufacturerModelName",
                  tagGet tags "PerformingPhysicianName",
                  tagGet tags "ReferringPhysicianName"]
  match firstUsableSource sources with
  | some source =>
    let labName := labNameOf source
    let identifier := labIdentifierOf source
    match store.find? (fun l =>
        (ciEq l.name labName || l.identifier == identifier) && l.isActive) with
    | some lab => ⟨lab, store, warnings⟩
    | none =>
      let lab : LabDoc :=
        { mongoId := freshId, name := labName, identifier := identifier,
          isActive := true,
          notes := "Auto-created from stable study DICOM tags. Original custom Lab ID: "
                   ++ jsOr customLabId "Not provided",
          contactPerson := jsOr (tagGet tags "PerformingPhysicianName")
                            (jsOr (tagGet tags "ReferringPhysicianName") "") }
      ⟨lab, store ++ [lab], warnings⟩
  | none =>
    match store.find? (fun l => l.identifier == defaultLabIdentifier) with
    | some d => ⟨d, store, warnings⟩
    | none =>
      let d : LabDoc :=
        { mongoId := freshId, name := defaultLabName,
          identifier := defaultLabIdentifier, isActive := true,
          notes := "Default lab created. Original custom Lab ID: "
                   ++ jsOr customLabId "Not provided" }
      ⟨d, store ++ [d], warnings⟩

/-- `findOrCreateSourceLab(tags)`.  Tier 1 inspects the custom DICOM tag
`0011,1010`: a valid ObjectId is looked up by `_id` and returned only when the
lab is active (an inactive or missing lab logs a warning and continues to the
fallback tiers); an invalid ObjectId is looked up by uppercased identifier
among active labs. -/
def findOrCreateSourceLab (store : List LabDoc) (freshId : String)
    (tags : Tags) : LabResolution :=
  let customLabId := tagGet tags "0011,1010"
  match customLabId with
  | some cid =>
    if cid != "" && jsTrim cid != "" && cid != "UNKNOWN_LAB" then
      if isValidObjectId cid then
        match store.find? (fun l => l.mongoId == cid) with
        | some lab =>
          if lab.isActive then ⟨lab, store, []⟩
          else labFallback store freshId tags ["Lab found but inactive"]
        | none => labFallback store freshId tags ["Lab not found with custom ID"]
      else
        match store.find? (fun l =>
            l.identifier == jsToUpper cid && l.isActive) with
        | some lab => ⟨lab, store, ["Custom Lab ID is not a valid MongoDB ObjectId"]⟩
        | none => labFallback store freshId tags
            ["Custom Lab ID is not a valid MongoDB ObjectId"]
    else labFallback store freshId tags []
  | none => labFallback store freshId tags []

/-! ## Archive environment and instance discovery (`processStableStudy`, lines 435-863)

The Orthanc archive is modelled as a record of responses: each HTTP call the
pipeline can make is one field, with `Except` carrying either the response or
the axios error message.  `Date.now()` and the generated Mongo ids are further
environment fields. -/

/-- `/series/{id}` response: the instance list and the series-level tags. -/
structure SeriesData where
  instances : List String
  mainDicomTags : Tags
deriving Repr, DecidableEq

/-- `/studies/{id}` response: top-level tags and the series id list. -/
structure StudyInfo where
  mainDicomTags : Tags
  series : List String
deriving Repr, DecidableEq

/-- One pipeline run's view of the archive and of the nondeterministic
generators. -/
structure ArchiveEnv where
  studySummary : Except String StudyInfo
  studyInstances : Except String (List String)
  seriesDetail : String → Except String SeriesData
  instanceProbe : String → Bool
  instanceTags : String → Except String Tags
  now : Nat
  freshPatientMongoId : String
  freshPatientID : String
  freshLabId : String

/-- State of instance discovery (lines 472-571), together with a trace of the
series-detail fetches issued by Method 2 and the instance probes issued by
Method 3. -/
structure Discovery where
  instancesArray : List String
  firstInstanceId : Option String
  tags : Tags
  seriesFetches : List String
  probes : List String
deriving Repr, DecidableEq

/-- Method 1 (lines 477-497): `GET /studies/{id}/instances`; an axios error is
caught and leaves the instance list empty. -/
def method1Instances (env : ArchiveEnv) : List String :=
  match env.studyInstances with
  | .ok l => l
  | .error _ => []

/-- One Method 2 iteration (lines 503-539): fetch a series, accumulate its
instances, record the first instance id, and merge series-level tags only while
the tag set is still empty.  A failed fetch is logged and skipped. -/
def method2Step (env : ArchiveEnv) (acc : Discovery) (seriesId : String) :
    Discovery :=
  let acc := { acc with seriesFetches := acc.seriesFetches ++ [seriesId] }
  match env.seriesDetail seriesId with
  | .error _ => acc
  | .ok sd =>
    { acc with
      instancesArray := acc.instancesArray ++ sd.instances,
      firstInstanceId :=
        (if !(strTruthy acc.firstInstanceId) && !sd.instances.isEmpty then
          sd.instances.head? else acc.firstInstanceId),
      tags := (if !(tagsIsEmpty acc.tags) then acc.tags
               else tagMerge acc.tags sd.mainDicomTags) }

/-- One Method 3 iteration (lines 548-568): probe a series id as an instance
id; a failed probe is expected and discarded. -/
def method3Step (env : ArchiveEnv) (acc : Discovery) (seriesId : String) :
    Discovery :=
  let acc := { acc with probes := acc.probes ++ [seriesId] }
  if env.instanceProbe seriesId then
    { acc with
      instancesArray := acc.instancesArray ++ [seriesId],
      firstInstanceId :=
        (if !(strTruthy acc.firstInstanceId) then some seriesId
         else acc.firstInstanceId) }
  else acc

/-- The full discovery chain: Method 1, then Method 2 and Method 3 each
guarded by `instancesArray.length === 0 && studyInfo.Series.length > 0`. -/
def discoverInstances (env : ArchiveEnv) (series : List String) : Discovery :=
  let m1 := method1Instances env
  let d0 : Discovery :=
    { instancesArray := m1, firstInstanceId := m1.head?, tags := [],
      seriesFetches := [], probes := [] }
  let d1 := if d0.instancesArray.isEmpty && !series.isEmpty then
              series.foldl (method2Step env) d0
            else d0
  if d1.instancesArray.isEmpty && !series.isEmpty then
    series.foldl (method3Step env) d1
  else d1

/-- Placeholder `StudyDate` synthesized from the current clock on line 613
(`toISOString().slice(0,10)` with dashes removed); the calendar rendering of
the timestamp is immaterial to every claim. -/
def dateStampOf (now : Nat) : String := "DATE_" ++ toString now

/-- Metadata assembly after discovery (lines 575-617): instance-level tags
merged over accumulated tags, then study-level tags as fallback, then the
synthesized minimal tag set as last resort. -/
def gatherTags (env : ArchiveEnv) (studyInfo : StudyInfo) (uid : String)
    (d : Discovery) : Tags :=
  let tags1 :=
    match d.firstInstanceId with
    | some iid =>
      if iid != "" then
        match env.instanceTags iid with
        | .ok t => tagMerge d.tags t
        | .error _ => d.tags
      else d.tags
    | none => d.tags
  let tags2 :=
    if tagsIsEmpty tags1 || !(strTruthy (tagGet tags1 "PatientName")) then
      tagMerge studyInfo.mainDicomTags tags1
    else tags1
  if !(strTruthy (tagGet tags2 "PatientName")) &&
     !(strTruthy (tagGet tags2 "PatientID")) then
    tagMerge
      [("PatientName", "Unknown Patient"),
       ("PatientID", "UNKNOWN_" ++ toString env.now),
       ("StudyDescription", "Unknown Study"),
       ("StudyInstanceUID", uid),
       ("StudyDate", dateStampOf env.now),
       ("Modality", "UNKNOWN")] tags2
  else tags2

/-- Modality aggregation (lines 639-661): the top-level `Modality` tag joined
with each series' own modality (insertion-ordered set semantics), defaulting
to the literal `UNKNOWN`. -/
def modalitiesOf (env : ArchiveEnv) (studyInfo : StudyInfo) (tags : Tags) :
    List String :=
  let s0 := match tagGet tags "Modality" with
            | some m => if m != "" then [m] else []
            | none => []
  let s1 := studyInfo.series.foldl (fun acc sid =>
    match env.seriesDetail sid with
    | .ok sd =>
      match tagGet sd.mainDicomTags "Modality" with
      | some m => if m != "" && !(acc.contains m) then acc ++ [m] else acc
      | none => acc
    | .error _ => acc) s0
  if s1.isEmpty then ["UNKNOWN"] else s1

/-! ## Study upsert (lines 666-789) -/

/-- The denormalized fields written by `studyData` (lines 673-766), restricted
to the fields the claims mention; the remaining JS fields (physicians,
equipment, storageInfo, ...) are further denormalized copies of tag values
with the same `Object.assign` overwrite behaviour. -/
structure StudyData where
  orthancStudyID : String
  studyInstanceUID : String
  accessionNumber : String
  patientRef : String
  patientId : String
  sourceLabId : String
  modalitiesInStudy : List String
  examDescription : String
  institutionName : String
  workflowStatus : String
  seriesCount : Nat
  instanceCount : Nat
deriving Repr, DecidableEq

/-- One status-history entry. -/
structure HistoryEntry where
  status : String
  note : String
deriving Repr, DecidableEq

/-- A persisted Study aggregate: the denormalized snapshot plus the
append-only status history. -/
structure StudyDoc where
  data : StudyData
  statusHistory : List HistoryEntry
deriving Repr, DecidableEq

/-- `studyData` as built on lines 673-766 from the assembled tags and the
resolved patient and lab. -/
def buildStudyData (orthancStudyId uid : String) (tags : Tags)
    (patientRecord : PatientDoc) (labRecord : LabDoc) (mods : List String)
    (seriesCount instanceCount : Nat) : StudyData :=
  { orthancStudyID := orthancStudyId,
    studyInstanceUID := uid,
    accessionNumber := jsOr (tagGet tags "AccessionNumber") "",
    patientRef := patientRecord.mongoId,
    patientId := patientRecord.patientID,
    sourceLabId := labRecord.mongoId,
    modalitiesInStudy := mods,
    examDescription := jsOr (tagGet tags "StudyDescription") "Unknown Study",
    institutionName := jsOr (tagGet tags "InstitutionName") "",
    workflowStatus := if instanceCount > 0 then "new_study_received"
                      else "new_metadata_only",
    seriesCount := seriesCount,
    instanceCount := instanceCount }

/-- The upsert (lines 766-788): find by `studyInstanceUID`; if found,
`Object.assign` the new `studyData` over the document and push one
status-history entry; otherwise create the document with a single initial
entry.  The store replaces the found document in place (Mongoose `save` writes
back the fetched document). -/
def upsertStudy (store : List StudyDoc) (sd : StudyData) (labName : String) :
    StudyDoc × List StudyDoc :=
  match store.find? (fun d => d.data.studyInstanceUID == sd.studyInstanceUID) with
  | some d =>
    let d' : StudyDoc :=
      { data := sd,
        statusHistory := d.statusHistory ++
          [{ status := sd.workflowStatus,
             note := "Stable study updated: " ++ toString sd.seriesCount ++
                     " series, " ++ toString sd.instanceCount ++
                     " instances. Lab: " ++ labName }] }
    (d', store.map (fun x =>
      if x.data.studyInstanceUID == sd.studyInstanceUID then d' else x))
  | none =>
    let d : StudyDoc :=
      { data := sd,
        statusHistory :=
          [{ status := sd.workflowStatus,
             note := "Stable study created: " ++ toString sd.seriesCount ++
                     " series, " ++ toString sd.instanceCount ++
                     " instances. Lab: " ++ labName }] }
    (d, store ++ [d])

/-! ## One pipeline run -/

/-- A Redis `setex job:result:{requestId}` write: the cached terminal outcome
of a run. -/
structure CacheEntry where
  key : String
  success : Bool
  errorMsg : Option String
deriving Repr, DecidableEq

/-- The Redis key `job:result:` ++ requestId. -/
def cacheKey (requestId : String) : String := "job:result:" ++ requestId

/-- All shared document stores plus the result cache. -/
structure Stores where
  patients : List PatientDoc
  labs : List LabDoc
  studies : List StudyDoc
  cache : List CacheEntry
deriving Repr, DecidableEq

/-- Everything one `processStableStudy` run produced: the stores afterwards,
the JS return-or-throw, and the discovery trace (`none` when the run failed
before instance discovery). -/
structure RunOutcome where
  stores : Stores
  result : Except String Unit
  discovery : Option Discovery

/-- The tag set a successful run assembles, as a function of the environment
and the study summary. -/
def pipelineTags (env : ArchiveEnv) (si : StudyInfo) (uid : String) : Tags :=
  gatherTags env si uid (discoverInstances env si.series)

/-- The patient resolution a successful run performs. -/
def pipelinePatient (env : ArchiveEnv) (st : Stores) (si : StudyInfo)
    (uid : String) : PatientResolution :=
  findOrCreatePatientFromTags st.patients env.now env.freshPatientMongoId
    env.freshPatientID (pipelineTags env si uid)

/-- The lab resolution a successful run performs. -/
def pipelineLab (env : ArchiveEnv) (st : Stores) (si : StudyInfo)
    (uid : String) : LabResolution :=
  findOrCreateSourceLab st.labs env.freshLabId (pipelineTags env si uid)

/-- The `studyData` a successful run writes. -/
def pipelineStudyData (env : ArchiveEnv) (orthancStudyId : String)
    (st : Stores) (si : StudyInfo) (uid : String) : StudyData :=
  buildStudyData orthancStudyId uid (pipelineTags env si uid)
    (pipelinePatient env st si uid).doc (pipelineLab env st si uid).doc
    (modalitiesOf env si (pipelineTags env si uid))
    si.series.length (discoverInstances env si.series).instancesArray.length

/-- The error message thrown when the study summary lacks a usable
`StudyInstanceUID` (line 464). -/
def missingUidError : String := "StudyInstanceUID not found in stable study"

/-- `processStableStudy(job)` for the job payload
`{orthancStudyId, requestId}`.  A summary-fetch failure or missing
`StudyInstanceUID` throws; the catch block caches a failure outcome and
rethrows.  A successful run resolves patient and lab, upserts the study and
caches a success outcome. -/
def processStableStudy (env : ArchiveEnv) (orthancStudyId requestId : String)
    (st : Stores) : RunOutcome :=
  match env.studySummary with
  | .error msg =>
    { stores := { st with cache := st.cache ++
        [{ key := cacheKey requestId, success := false, errorMsg := some msg }] },
      result := .error msg, discovery := none }
  | .ok si =>
    if strTruthy (tagGet si.mainDicomTags "StudyInstanceUID") then
      let uid := (tagGet si.mainDicomTags "StudyInstanceUID").getD ""
      let d := discoverInstances env si.series
      let pres := pipelinePatient env st si uid
      let lres := pipelineLab env st si uid
      let sd := pipelineStudyData env orthancStudyId st si uid
      let up := upsertStudy st.studies sd lres.doc.name
      { stores := { patients := pres.store, labs := lres.store,
                    studies := up.2,
                    cache := st.cache ++
                      [{ key := cacheKey requestId, success := true,
                         errorMsg := none }] },
        result := .ok (), discovery := some d }
    else
      { stores := { st with cache := st.cache ++
          [{ key := cacheKey requestId, success := false,
             errorMsg := some missingUidError }] },
        result := .error missingUidError, discovery := none }

/-! ## The stable-study job queue (`StableStudyQueue`, lines 30-116)

The queue is a Map of jobs with monotonically increasing ids, a `processing`
set and a concurrency constant.  Its behaviour is modelled as a state machine
driven by events: `enqueue` is `add`, `startNext` is one admission iteration
of the scheduler's inner loop together with the synchronous prefix of
`processJob` (insert into `processing`, set status `active`), and `finish` is
the resolution of one job's pipeline promise (the try/catch/finally of
`processJob`). -/

/-- Job status strings used by the queue. -/
inductive JobStatus
  | waiting
  | active
  | completed
  | failed
deriving Repr, DecidableEq

/-- One queued job (the fields the claims mention). -/
structure QJob where
  id : Nat
  status : JobStatus
  error : Option String := none
deriving Repr, DecidableEq

/-- Queue state: the job map in insertion order, the id counter, and the
`processing` set. -/
structure QueueState where
  jobs : List QJob
  nextJobId : Nat
  processing : List Nat
deriving Repr, DecidableEq

/-- `this.concurrency = 10` (line 36). -/
def queueConcurrency : Nat := 10

/-- The queue as constructed (lines 31-37). -/
def initialQueue : QueueState := { jobs := [], nextJobId := 1, processing := [] }

/-- `add(jobData)` (lines 39-60): assign the next id, append a waiting job. -/
def addJob (s : QueueState) : QueueState :=
  { jobs := s.jobs ++ [{ id := s.nextJobId, status := .waiting }],
    nextJobId := s.nextJobId + 1,
    processing := s.processing }

/-- One admission iteration of the scheduler's inner loop (lines 69-75) fused
with the synchronous prefix of `processJob` (lines 85-86): if capacity
remains and a waiting job exists, the first waiting job becomes active and
joins `processing`. -/
def startNextJob (s : QueueState) : QueueState :=
  if s.processing.length < queueConcurrency then
    match s.jobs.find? (fun j => j.status == .waiting) with
    | some j =>
      { jobs := s.jobs.map (fun x =>
          if x.id == j.id then { x with status := JobStatus.active } else x),
        nextJobId := s.nextJobId,
        processing := s.processing ++ [j.id] }
    | none => s
  else s

/-- Completion of one admitted job's pipeline (lines 90-102): `completed` on a
normal return, `failed` with the error message recorded on a throw; the
`finally` clause removes the id from `processing` in both cases.  Only a
currently active job can resolve. -/
def finishJob (s : QueueState) (jid : Nat) (outcome : Except String Unit) :
    QueueState :=
  if (s.jobs.find? (fun j => j.id == jid && j.status == .active)).isSome then
    { jobs := s.jobs.map (fun x =>
        if x.id == jid then
          { x with
            status := match outcome with
                      | .ok _ => JobStatus.completed
                      | .error _ => JobStatus.failed,
            error := match outcome with
                     | .ok _ => x.error
                     | .error m => some m }
        else x),
      nextJobId := s.nextJobId,
      processing := s.processing.filter (fun i => i != jid) }
  else s

/-- Scheduler events. -/
inductive QueueEvent
  | enqueue
  | startNext
  | finish (jid : Nat) (outcome : Except String Unit)

/-- Apply one event. -/
def queueStep (s : QueueState) : QueueEvent → QueueState
  | .enqueue => addJob s
  | .startNext => startNextJob s
  | .finish jid outcome => finishJob s jid outcome

/-- Run the queue from its initial state over an event sequence; the event
sequences range over every interleaving of enqueues, admissions and
completions the JS event loop can produce. -/
def runQueue (evs : List QueueEvent) : QueueState :=
  evs.foldl queueStep initialQueue

/-- Number of jobs currently in the Active status. -/
def activeCount (s : QueueState) : Nat :=
  (s.jobs.filter (fun j => j.status == .active)).length

/-! ## Derived notions used to state the claims -/

/-- The identifier formula exactly as the specification words it: the
uppercase form of the input string with every run of whitespace collapsed to a
single underscore. -/
def claimedIdentifierOf (source : String) : String :=
  ⟨collapseRuns Char.isWhitespace '_' (jsToUpper source).data⟩

/-- Whitespace or underscore. -/
def wsOrUnderscore (c : Char) : Bool := c.isWhitespace || c == '_'

/-- Canonical characterization of the identifier the code actually derives:
trim the input, collapse every maximal run of whitespace-or-underscore
characters to a single underscore, and uppercase. -/
def canonicalIdentifierOf (source : String) : String :=
  ⟨(collapseRuns wsOrUnderscore '_' (jsTrimList source.data)).map Char.toUpper⟩

/-- The fatal-to-job condition of one run: the summary fetch failed, or the
summary carries no usable `StudyInstanceUID`; `some msg` is the message the
run throws. -/
def fatalError (env : ArchiveEnv) : Option String :=
  match env.studySummary with
  | .error m => some m
  | .ok si =>
    if strTruthy (tagGet si.mainDicomTags "StudyInstanceUID") then none
    else some missingUidError

/-- The study documents keyed by one external study instance identifier. -/
def docsKeyed (uid : String) (st : Stores) : List StudyDoc :=
  st.studies.filter (fun d => d.data.studyInstanceUID == uid)

/-- Inputs of one full pipeline run: the archive environment plus the job
payload fields. -/
structure RunCfg where
  env : ArchiveEnv
  orthancStudyId : String
  requestId : String

/-- The stores after one run. -/
def ingestOne (c : RunCfg) (st : Stores) : Stores :=
  (processStableStudy c.env c.orthancStudyId c.requestId st).stores

/-- The stores after a sequence of runs, executed sequentially. -/
def ingestAll (cfgs : List RunCfg) (st : Stores) : Stores :=
  cfgs.foldl (fun s c => ingestOne c s) st

/-- A run whose summary fetch succeeds and yields the (truthy) study instance
identifier `uid`, so that the run reaches the upsert. -/
def succeedsFor (c : RunCfg) (uid : String) : Prop :=
  ∃ si, c.env.studySummary = .ok si ∧
    tagGet si.mainDicomTags "StudyInstanceUID" = some uid ∧ uid ≠ ""

/-- FIFO admission: a job can only have left the Waiting status if every job
enqueued before it (smaller id) has left it as well. -/
def fifoAdmission (s : QueueState) : Prop :=
  ∀ a ∈ s.jobs, ∀ b ∈ s.jobs,
    a.id < b.id → a.status = JobStatus.waiting → b.status = JobStatus.waiting

/-- Inductive invariant of the queue state machine. -/
structure QueueInv (s : QueueState) : Prop where
  idsLt : ∀ j ∈ s.jobs, j.id < s.nextJobId
  sorted : s.jobs.Pairwise (fun a b => a.id < b.id)
  procNodup : s.processing.Nodup
  procActive : ∀ i, i ∈ s.processing ↔
    ∃ j ∈ s.jobs, j.id = i ∧ j.status = JobStatus.active
  procBound : s.processing.length ≤ queueConcurrency
  fifo : fifoAdmission s

/-! ## Concrete fixtures used by witnesses and counterexamples -/

/-- Summary of the example study `orth1`: `StudyInstanceUID 1.2.3`, one
series. -/
def exStudyInfo : StudyInfo :=
  { mainDicomTags := [("StudyInstanceUID", "1.2.3"), ("PatientID", "P1"),
                      ("PatientName", "DOE^JOHN")],
    series := ["s1"] }

/-- An archive whose study `orth1` announces `StudyInstanceUID 1.2.3` with one
series, whose direct instance listing returns two instances, and whose
per-series endpoint is down. -/
def exEnv : ArchiveEnv :=
  { studySummary := Except.ok exStudyInfo,
    studyInstances := Except.ok ["i1", "i2"],
    seriesDetail := fun _ => Except.error "series endpoint down",
    instanceProbe := fun _ => false,
    instanceTags := fun _ => Except.ok
      [("PatientID", "P1"), ("PatientName", "DOE^JOHN"), ("Modality", "CT")],
    now := 111, freshPatientMongoId := "pm1", freshPatientID := "PID1",
    freshLabId := "lab1" }

/-- The same archive with the study-summary endpoint failing. -/
def exEnvFail : ArchiveEnv := { exEnv with studySummary := Except.error "ECONNREFUSED" }

/-- A second ingestion environment for the same study, with fresh generators
and an ultrasound modality reported at instance level. -/
def exEnv2 : ArchiveEnv :=
  { exEnv with
    instanceTags := fun _ => Except.ok
      [("PatientID", "P1"), ("PatientName", "DOE^JOHN"), ("Modality", "US")],
    now := 222, freshPatientMongoId := "pm2", freshPatientID := "PID2",
    freshLabId := "lab2" }

/-- Empty stores. -/
def exStores0 : Stores := { patients := [], labs := [], studies := [], cache := [] }

/-- A study aggregate for `1.2.3` whose workflow status has progressed past
the ingestion-controlled states. -/
def exProgressedDoc : StudyDoc :=
  { data := { orthancStudyID := "orth1", studyInstanceUID := "1.2.3",
              accessionNumber := "", patientRef := "p0", patientId := "P0",
              sourceLabId := "l0", modalitiesInStudy := ["CT"],
              examDescription := "CHEST CT", institutionName := "",
              workflowStatus := "report_finalized", seriesCount := 1,
              instanceCount := 1 },
    statusHistory := [{ status := "new_study_received", note := "created" }] }

/-- An inactive lab whose Mongo id is a valid 24-hex-character ObjectId. -/
def exInactiveLab : LabDoc :=
  { mongoId := "aaaaaaaaaaaaaaaaaaaaaaaa", name := "Old Lab",
    identifier := "OLD_LAB", isActive := false }

/-- First ingestion run configuration for claim C2's witness. -/
def exCfg1 : RunCfg := { env := exEnv, orthancStudyId := "orth1", requestId := "req1" }

/-- Second ingestion run configuration for claim C2's witness. -/
def exCfg2 : RunCfg := { env := exEnv2, orthancStudyId := "orth1", requestId := "req2" }

/-! # Theorems

## Character-level lemmas for the identifier canonicalization -/

theorem collapseRuns_cons_neg (p : Char → Bool) (rep a : Char) (l : List Char)
    (h : ¬ p a = true) :
    collapseRuns p rep (a :: l) = a :: collapseRuns p rep l := by
  cases l <;> simp [collapseRuns, h]

theorem collapseRuns_twice (p : Char → Bool) (r1 r2 : Char) (h : p r1 = true)
    (l : List Char) :
    collapseRuns p r2 (collapseRuns p r1 l) = collapseRuns p r2 l := by
  induction l using collapseRuns.induct p r1 with
  | case1 => rfl
  | case2 a hp => simp [collapseRuns, hp, h]
  | case3 a hp => simp [collapseRuns, hp]
  | case4 a b rest hpa hpb ih => simp [collapseRuns, hpa, hpb]; exact ih
  | case5 a b rest hpa hpb ih =>
    rw [show collapseRuns p r1 (a :: b :: rest)
          = r1 :: collapseRuns p r1 (b :: rest) by simp [collapseRuns, hpa, hpb]]
    rw [collapseRuns_cons_neg p r1 b rest hpb]
    rw [show collapseRuns p r2 (r1 :: b :: collapseRuns p r1 rest)
          = r2 :: collapseRuns p r2 (b :: collapseRuns p r1 rest) by
        simp [collapseRuns, h, hpb]]
    rw [← collapseRuns_cons_neg p r1 b rest hpb, ih]
    simp [collapseRuns, hpa, hpb]
  | case6 a b rest hpa ih =>
    rw [collapseRuns_cons_neg p r1 a (b :: rest) hpa,
        collapseRuns_cons_neg p r2 a (collapseRuns p r1 (b :: rest)) hpa, ih,
        collapseRuns_cons_neg p r2 a (b :: rest) hpa]

theorem collapseRuns_map (p : Char → Bool) (rep : Char) (f : Char → Char)
    (hp : ∀ c, p (f c) = p c) (hrep : f rep = rep) (l : List Char) :
    collapseRuns p rep (l.map f) = (collapseRuns p rep l).map f := by
  induction l using collapseRuns.induct p rep with
  | case1 => rfl
  | case2 a ha => simp [collapseRuns, hp, ha, hrep]
  | case3 a ha => simp [collapseRuns, hp, ha]
  | case4 a b rest hpa hpb ih => simp [collapseRuns, hp, hpa, hpb]; exact ih
  | case5 a b rest hpa hpb ih => simp [collapseRuns, hp, hpa, hpb, hrep]; exact ih
  | case6 a b rest hpa ih => simp [collapseRuns, hp, hpa]; exact ih

theorem collapseRuns_map_abs (p q : Char → Bool) (rep : Char) (f : Char → Char)
    (hq : ∀ c, q c = p (f c)) (hfix : ∀ c, p (f c) = false → f c = c)
    (l : List Char) :
    collapseRuns p rep (l.map f) = collapseRuns q rep l := by
  induction l using collapseRuns.induct q rep with
  | case1 => rfl
  | case2 a ha => simp [collapseRuns, ← hq, ha]
  | case3 a ha =>
    have hf : p (f a) = false := by rw [← hq]; simpa using ha
    have hpa : p a = false := by rw [← hfix a hf]; exact hf
    simp [collapseRuns, hpa, hfix a hf, ← hq, ha]
  | case4 a b rest hpa hpb ih => simp [collapseRuns, ← hq, hpa, hpb]; exact ih
  | case5 a b rest hpa hpb ih => simp [collapseRuns, ← hq, hpa, hpb]; exact ih
  | case6 a b rest hpa ih =>
    have hf : p (f a) = false := by rw [← hq]; simpa using hpa
    have hpa' : p a = false := by rw [← hfix a hf]; exact hf
    rw [List.map_cons, collapseRuns_cons_neg p rep (f a) _ (by simp [hf]),
        hfix a hf, collapseRuns_cons_neg q rep a _ hpa, ih]

theorem ws_iff_toNat (c : Char) :
    c.isWhitespace = true ↔
      (c.toNat = 32 ∨ c.toNat = 9 ∨ c.toNat = 13 ∨ c.toNat = 10) := by
  unfold Char.isWhitespace
  simp only [Bool.or_eq_true, decide_eq_true_eq]
  constructor
  · rintro (((h | h) | h) | h) <;> subst h <;> decide
  · have mk : ∀ d : Char, c.toNat = d.toNat → c = d := fun d hd =>
      Char.eq_of_val_eq (UInt32.ext hd)
    rintro (h | h | h | h)
    · exact Or.inl (Or.inl (Or.inl (mk ' ' (by rw [h]; decide))))
    · exact Or.inl (Or.inl (Or.inr (mk '\t' (by rw [h]; decide))))
    · exact Or.inl (Or.inr (mk '\r' (by rw [h]; decide)))
    · exact Or.inr (mk '\n' (by rw [h]; decide))

theorem charToNat_ofNat (m : Nat) (h : m.isValidChar) :
    (Char.ofNat m).toNat = m := by
  simp [Char.ofNat, h, Char.ofNatAux, Char.toNat, UInt32.toNat,
        BitVec.toNat_ofNatLt]

theorem ws_toUpper (c : Char) :
    (Char.toUpper c).isWhitespace = c.isWhitespace := by
  by_cases h : c.toNat ≥ 97 ∧ c.toNat ≤ 122
  · have hval : (c.toNat - 32).isValidChar := by left; omega
    have h1 : (Char.toUpper c).isWhitespace = false := by
      rw [show Char.toUpper c = Char.ofNat (c.toNat - 32) by
        simp [Char.toUpper, h]]
      by_contra hw
      simp only [Bool.not_eq_false] at hw
      rw [ws_iff_toNat, charToNat_ofNat _ hval] at hw
      omega
    have h2 : c.isWhitespace = false := by
      by_contra hw
      simp only [Bool.not_eq_false] at hw
      rw [ws_iff_toNat] at hw
      omega
    rw [h1, h2]
  · simp [Char.toUpper, h]

theorem wsOrUnderscore_eq (c : Char) :
    wsOrUnderscore c = Char.isWhitespace (underscoreToSpace c) := by
  by_cases h : c = '_'
  · subst h; decide
  · simp [wsOrUnderscore, underscoreToSpace, h]

theorem underscoreToSpace_fix (c : Char)
    (h : Char.isWhitespace (underscoreToSpace c) = false) :
    underscoreToSpace c = c := by
  by_cases hc : c = '_'
  · subst hc; simp [underscoreToSpace] at h
  · simp [underscoreToSpace, hc]

/-! ## Claim C6 — lab identifier canonicalization -/

/-- C6, counterexample: for the heuristic source `" A B"` (trimmed length 3,
so it is considered by the heuristic tier) the resolver derives the identifier
`"A_B"`, while the claimed formula — uppercase the raw input and collapse
whitespace runs to single underscores — yields `"_A_B"`. -/
theorem c6_counterexample :
    ( findOrCreateSourceLab [] "lab1" [("InstitutionName", " A B")] ).doc.identifier
        = labIdentifierOf " A B" ∧
    labIdentifierOf " A B" = "A_B" ∧
    claimedIdentifierOf " A B" = "_A_B" ∧
    labIdentifierOf " A B" ≠ claimedIdentifierOf " A B" := by
  refine ⟨by decide, by decide, by decide, by decide⟩

/-- C6, amended: the derived identifier equals the uppercase form of the
*trimmed* input with every maximal run of whitespace *and underscore*
characters collapsed to a single underscore (the code trims first and turns
underscores into spaces before collapsing). -/
theorem c6_amended_canonical_identifier (source : String) :
    labIdentifierOf source = canonicalIdentifierOf source := by
  unfold labIdentifierOf canonicalIdentifierOf labNameOf
  apply congrArg String.mk
  rw [show (String.mk (collapseRuns Char.isWhitespace ' '
        ((jsTrimList source.data).map underscoreToSpace))).data
      = collapseRuns Char.isWhitespace ' '
        ((jsTrimList source.data).map underscoreToSpace) from rfl]
  rw [collapseRuns_map Char.isWhitespace '_' Char.toUpper ws_toUpper (by decide)]
  rw [collapseRuns_twice Char.isWhitespace ' ' '_' (by decide)]
  rw [collapseRuns_map_abs Char.isWhitespace wsOrUnderscore '_' underscoreToSpace
        wsOrUnderscore_eq underscoreToSpace_fix]

/-! ## Claim C5 — empty and placeholder person-name encodings -/

/-- C5, counterexample: the empty person-name encoding `""` is falsy in JS and
takes the first guard of `processDicomPersonName`, so it resolves to
`"Unknown Patient"`, not `"Anonymous Patient"`. -/
theorem c5_counterexample :
    (processDicomPersonName (some "")).formattedForDisplay ≠ "Anonymous Patient" := by
  decide

/-- C5, amended: the placeholder encodings `"^"` and `"^^^"` resolve to the
literal `"Anonymous Patient"` display, while the empty string `""` resolves to
`"Unknown Patient"` (the falsy-input branch). -/
theorem c5_amended_placeholder_names :
    (processDicomPersonName (some "^")).formattedForDisplay = "Anonymous Patient" ∧
    (processDicomPersonName (some "^^^")).formattedForDisplay = "Anonymous Patient" ∧
    (processDicomPersonName (some "")).formattedForDisplay = "Unknown Patient" := by
  refine ⟨by decide, by decide, by decide⟩

/-! ## Claim C3 — anonymous-sentinel resolution -/

theorem joinSpace_ne_empty (x : String) (xs : List String) (hx : x ≠ "") :
    joinSpace (x :: xs) ≠ "" := by
  cases xs with
  | nil => simpa [joinSpace] using hx
  | cons y ys =>
    simp only [joinSpace]
    intro h
    have hd := congrArg String.data h
    simp [String.data_append] at hd

theorem filteredJoin_ne_empty (l : List String) :
    (if (l.filter (fun x => x != "")).length > 0
     then joinSpace (l.filter (fun x => x != ""))
     else "Unknown Patient") ≠ "" := by
  cases hl : l.filter (fun x => x != "") with
  | nil => simp
  | cons x xs =>
    have hx : x ∈ l.filter (fun x => x != "") := by
      rw [hl]; exact List.mem_cons_self x xs
    have hxne : x ≠ "" := by simpa using List.of_mem_filter hx
    simpa using joinSpace_ne_empty x xs hxne

/-- The guard of the sentinel branch can never fire on the name side:
`processDicomPersonName` always returns a nonempty `fullName` (it defaults to
`"Unknown Patient"`), so `!nameInfo.fullName` is always false and the branch
returning the shared `UNKNOWN_STABLE_STUDY` patient is dead code. -/
theorem processDicomPersonName_fullName_nonempty (o : Option String) :
    (processDicomPersonName o).fullName ≠ "" := by
  dsimp only [processDicomPersonName]
  split
  · simp
  · split
    · simp
    · simpa using filteredJoin_ne_empty
        [jsTrim ⟨(splitChar '^' (jsTrim (o.getD "")).data).getD 3 []⟩,
         jsTrim ⟨(splitChar '^' (jsTrim (o.getD "")).data).getD 1 []⟩,
         jsTrim ⟨(splitChar '^' (jsTrim (o.getD "")).data).getD 2 []⟩,
         jsTrim ⟨(splitChar '^' (jsTrim (o.getD "")).data).getD 0 []⟩,
         jsTrim ⟨(splitChar '^' (jsTrim (o.getD "")).data).getD 4 []⟩]

/-- C3, evaluation at the failing input: with a tag set containing neither
`PatientID` nor `PatientName`, against an empty patient store, the resolver
creates a brand-new patient with mrn `ANON_<Date.now()>` instead of returning
the shared `UNKNOWN_STABLE_STUDY` sentinel — the sentinel branch is guarded by
`!nameInfo.fullName`, which is never true. -/
theorem c3_no_identifiers_creates_anon_patient :
    (findOrCreatePatientFromTags [] 123 "pm1" "PID1" []).doc.mrn = "ANON_123" ∧
    (findOrCreatePatientFromTags [] 123 "pm1" "PID1" []).doc.mrn
        ≠ "UNKNOWN_STABLE_STUDY" ∧
    (findOrCreatePatientFromTags [] 123 "pm1" "PID1" []).createdNew = true ∧
    (findOrCreatePatientFromTags [] 123 "pm1" "PID1" []).store.length = 1 := by
  refine ⟨by decide, by decide, by decide, by decide⟩

/-! ## Claim C4 — inactive labs under the direct internal reference -/

theorem labFallback_warnings (store : List LabDoc) (freshId : String)
    (tags : Tags) (w : List String) :
    (labFallback store freshId tags w).warnings = w := by
  dsimp only [labFallback]
  split
  · split <;> rfl
  · split <;> rfl

/-- C4, amended: when the direct internal lab reference (tag `0011,1010`) is a
valid ObjectId resolving by identity to a stored Lab with `isActive=false`,
the resolver does *not* return that Lab; it records the inactive-lab warning
and falls through to the heuristic/default fallback tiers. -/
theorem c4_amended_inactive_direct_reference (store : List LabDoc)
    (freshId : String) (tags : Tags) (cid : String) (lab : LabDoc)
    (htag : tagGet tags "0011,1010" = some cid)
    (hne : cid ≠ "") (htrim : jsTrim cid ≠ "") (hunk : cid ≠ "UNKNOWN_LAB")
    (hvalid : isValidObjectId cid = true)
    (hfound : store.find? (fun l => l.mongoId == cid) = some lab)
    (hinactive : lab.isActive = false) :
    findOrCreateSourceLab store freshId tags
        = labFallback store freshId tags ["Lab found but inactive"] ∧
    (findOrCreateSourceLab store freshId tags).warnings
        = ["Lab found but inactive"] := by
  have hmain : findOrCreateSourceLab store freshId tags
      = labFallback store freshId tags ["Lab found but inactive"] := by
    unfold findOrCreateSourceLab
    rw [htag]
    have hcond : (cid != "" && jsTrim cid != "" && cid != "UNKNOWN_LAB") = true := by
      simp [bne_iff_ne, hne, htrim, hunk]
    simp only [hcond, if_true, hvalid, hfound, hinactive, Bool.false_eq_true,
      if_false]
  exact ⟨hmain, by rw [hmain, labFallback_warnings]⟩

/-- C4, witness: the amended theorem applied to a store holding one inactive
lab addressed by its ObjectId. -/
theorem c4_witness :
    findOrCreateSourceLab [exInactiveLab] "f1"
        [("0011,1010", "aaaaaaaaaaaaaaaaaaaaaaaa")]
      = labFallback [exInactiveLab] "f1"
          [("0011,1010", "aaaaaaaaaaaaaaaaaaaaaaaa")] ["Lab found but inactive"] ∧
    (findOrCreateSourceLab [exInactiveLab] "f1"
        [("0011,1010", "aaaaaaaaaaaaaaaaaaaaaaaa")]).warnings
      = ["Lab found but inactive"] :=
  c4_amended_inactive_direct_reference [exInactiveLab] "f1"
    [("0011,1010", "aaaaaaaaaaaaaaaaaaaaaaaa")] "aaaaaaaaaaaaaaaaaaaaaaaa"
    exInactiveLab (by decide) (by decide) (by decide) (by decide) (by decide)
    (by decide) (by decide)

/-- C4, counterexample: the claim as stated is false — the direct
internal-reference tier does not return the inactive lab it found; the run
falls through and lands on the freshly created default lab. -/
theorem c4_counterexample :
    (findOrCreateSourceLab [exInactiveLab] "f1"
        [("0011,1010", "aaaaaaaaaaaaaaaaaaaaaaaa")]).doc ≠ exInactiveLab ∧
    (findOrCreateSourceLab [exInactiveLab] "f1"
        [("0011,1010", "aaaaaaaaaaaaaaaaaaaaaaaa")]).doc.identifier
      = defaultLabIdentifier := by
  refine ⟨by decide, by decide⟩

/-! ## Claim C7 — the direct instance listing short-circuits the fallbacks -/

/-- C7: if the direct `/studies/{id}/instances` listing (Method 1) returns a
nonempty instance list, the extractor performs no Method 2 series-by-series
fetches and no Method 3 instance probes, and records exactly the instances
from Method 1. -/
theorem c7_direct_listing_short_circuits (env : ArchiveEnv)
    (series : List String) (l : List String)
    (hok : env.studyInstances = Except.ok l) (hne : l ≠ []) :
    (discoverInstances env series).instancesArray = l ∧
    (discoverInstances env series).seriesFetches = [] ∧
    (discoverInstances env series).probes = [] := by
  unfold discoverInstances method1Instances
  rw [hok]
  have hempty : l.isEmpty = false := by simp [List.isEmpty_iff, hne]
  simp [hempty]

/-- C7, witness: the example archive lists two instances directly, so the
series endpoint (which is down in the example) is never consulted. -/
theorem c7_witness :
    (discoverInstances exEnv ["s1"]).instancesArray = ["i1", "i2"] ∧
    (discoverInstances exEnv ["s1"]).seriesFetches = [] ∧
    (discoverInstances exEnv ["s1"]).probes = [] :=
  c7_direct_listing_short_circuits exEnv ["s1"] ["i1", "i2"] rfl (by decide)

/-! ## Queue helper: resolution of an admitted job -/

theorem finishJob_active_sets (s : QueueState) (jid : Nat)
    (outcome : Except String Unit) (j : QJob)
    (hj : j ∈ s.jobs) (hid : j.id = jid) (hact : j.status = JobStatus.active) :
    (∃ j' ∈ (finishJob s jid outcome).jobs, j'.id = jid ∧
        j'.status = (match outcome with
                     | .ok _ => JobStatus.completed
                     | .error _ => JobStatus.failed) ∧
        ∀ m, outcome = .error m → j'.error = some m) ∧
    jid ∉ (finishJob s jid outcome).processing := by
  have hguard :
      (s.jobs.find? (fun x => x.id == jid && x.status == .active)).isSome = true := by
    rw [List.find?_isSome]
    exact ⟨j, hj, by simp [hid, hact]⟩
  unfold finishJob
  simp only [hguard, if_true]
  constructor
  · refine ⟨(fun x => if x.id == jid then
        { x with
          status := match outcome with
                    | .ok _ => JobStatus.completed
                    | .error _ => JobStatus.failed,
          error := match outcome with
                   | .ok _ => x.error
                   | .error m => some m } else x) j,
      List.mem_map_of_mem _ hj, ?_, ?_, ?_⟩
    · simp [hid]
    · simp [hid]
    · intro m hm
      subst hm
      simp [hid]
  · intro hmem
    rw [List.mem_filter] at hmem
    simp at hmem

/-! ## Claim C8 — fatal-to-job failures -/

/-- C8: when the study-summary fetch fails or the summary lacks a usable
`StudyInstanceUID`, the run throws that error without attempting any fallback
step (no discovery trace, no store mutation), a failure outcome is cached
under the job's request id, and resolving the admitted job with that thrown
error marks the job Failed with the message recorded. -/
theorem c8_fatal_failure_marks_job_failed (env : ArchiveEnv) (o rid : String)
    (st : Stores) (msg : String) (s : QueueState) (jid : Nat) (j : QJob)
    (hfatal : fatalError env = some msg)
    (hj : j ∈ s.jobs) (hid : j.id = jid) (hact : j.status = JobStatus.active) :
    (processStableStudy env o rid st).result = Except.error msg ∧
    (processStableStudy env o rid st).discovery = none ∧
    (processStableStudy env o rid st).stores.patients = st.patients ∧
    (processStableStudy env o rid st).stores.labs = st.labs ∧
    (processStableStudy env o rid st).stores.studies = st.studies ∧
    ({ key := cacheKey rid, success := false, errorMsg := some msg } : CacheEntry) ∈
      (processStableStudy env o rid st).stores.cache ∧
    ∃ j' ∈ (finishJob s jid (processStableStudy env o rid st).result).jobs,
      j'.id = jid ∧ j'.status = JobStatus.failed ∧ j'.error = some msg := by
  have hrun : processStableStudy env o rid st =
      { stores := { st with cache := st.cache ++
          [{ key := cacheKey rid, success := false, errorMsg := some msg }] },
        result := Except.error msg, discovery := none } := by
    rcases henv : env.studySummary with msg' | si
    · have hmsg : msg' = msg := by
        unfold fatalError at hfatal
        rw [henv] at hfatal
        exact Option.some.inj hfatal
      subst hmsg
      unfold processStableStudy
      rw [henv]
    · have h2 : (if strTruthy (tagGet si.mainDicomTags "StudyInstanceUID") = true
          then (none : Option String) else some missingUidError) = some msg := by
        have h3 := hfatal
        unfold fatalError at h3
        rw [henv] at h3
        exact h3
      have hstr : strTruthy (tagGet si.mainDicomTags "StudyInstanceUID") = false := by
        cases hs : strTruthy (tagGet si.mainDicomTags "StudyInstanceUID") with
        | false => rfl
        | true => rw [hs] at h2; simp at h2
      rw [hstr] at h2
      simp only [Bool.false_eq_true, if_false, Option.some.injEq] at h2
      subst h2
      unfold processStableStudy
      rw [henv]
      simp [hstr]
  rw [hrun]
  refine ⟨rfl, rfl, rfl, rfl, rfl, by simp, ?_⟩
  obtain ⟨⟨j', hj', hid', hstat, herr⟩, _⟩ :=
    finishJob_active_sets s jid (Except.error msg) j hj hid hact
  exact ⟨j', hj', hid', hstat, herr msg rfl⟩

/-- C8, witness: the failing example archive applied to a queue holding one
admitted job. -/
theorem c8_witness :
    (processStableStudy exEnvFail "orth1" "req1" exStores0).result
        = Except.error "ECONNREFUSED" ∧
    (processStableStudy exEnvFail "orth1" "req1" exStores0).discovery = none ∧
    (processStableStudy exEnvFail "orth1" "req1" exStores0).stores.patients
        = exStores0.patients ∧
    (processStableStudy exEnvFail "orth1" "req1" exStores0).stores.labs
        = exStores0.labs ∧
    (processStableStudy exEnvFail "orth1" "req1" exStores0).stores.studies
        = exStores0.studies ∧
    ({ key := cacheKey "req1", success := false,
       errorMsg := some "ECONNREFUSED" } : CacheEntry) ∈
      (processStableStudy exEnvFail "orth1" "req1" exStores0).stores.cache ∧
    ∃ j' ∈ (finishJob (runQueue [QueueEvent.enqueue, QueueEvent.startNext]) 1
        (processStableStudy exEnvFail "orth1" "req1" exStores0).result).jobs,
      j'.id = 1 ∧ j'.status = JobStatus.failed ∧ j'.error = some "ECONNREFUSED" :=
  c8_fatal_failure_marks_job_failed exEnvFail "orth1" "req1" exStores0
    "ECONNREFUSED" (runQueue [QueueEvent.enqueue, QueueEvent.startNext]) 1
    { id := 1, status := JobStatus.active } rfl (by decide) rfl rfl

/-! ## List lemmas for the upsert -/

theorem find?_map_replace {α : Type} (l : List α) (p : α → Bool) (z x : α)
    (hx : l.find? p = some x) (hz : p z = true) :
    (l.map (fun y => if p y then z else y)).find? p = some z := by
  induction l with
  | nil => simp at hx
  | cons a t ih =>
    by_cases hpa : p a = true
    · simp [List.find?_cons, hpa, hz]
    · have hxa : t.find? p = some x := by
        rw [List.find?_cons] at hx
        simpa [hpa] using hx
      rw [List.map_cons, List.find?_cons]
      simp only [hpa, if_false]
      simpa [hpa] using ih hxa

theorem filter_map_replace {α : Type} (l : List α) (p : α → Bool) (z : α)
    (hz : p z = true) :
    (l.map (fun y => if p y then z else y)).filter p
      = List.replicate (l.filter p).length z := by
  induction l with
  | nil => rfl
  | cons a t ih =>
    by_cases hpa : p a = true
    · rw [List.map_cons, if_pos hpa, List.filter_cons, if_pos hz, ih,
          List.filter_cons, if_pos hpa]
      rfl
    · rw [List.map_cons, if_neg hpa, List.filter_cons, if_neg hpa, ih,
          List.filter_cons, if_neg hpa]

theorem find?_eq_head?_filter {α : Type} (l : List α) (p : α → Bool) :
    l.find? p = (l.filter p).head? := by
  induction l with
  | nil => rfl
  | cons a t ih =>
    by_cases hpa : p a = true
    · rw [List.find?_cons_of_pos _ hpa, List.filter_cons, if_pos hpa]
      rfl
    · rw [List.find?_cons_of_neg _ hpa, List.filter_cons, if_neg hpa, ih]

/-! ## The study store after a successful run -/

theorem ingestOne_success (c : RunCfg) (st : Stores) (si : StudyInfo)
    (uid : String)
    (hok : c.env.studySummary = Except.ok si)
    (huid : tagGet si.mainDicomTags "StudyInstanceUID" = some uid)
    (hne : uid ≠ "") :
    (ingestOne c st).studies =
      (upsertStudy st.studies (pipelineStudyData c.env c.orthancStudyId st si uid)
        (pipelineLab c.env st si uid).doc.name).2 := by
  unfold ingestOne processStableStudy
  rw [hok]
  simp only [huid, Option.getD_some]
  have hstr : strTruthy (some uid) = true := by
    show (uid != "") = true
    simpa using hne
  simp only [hstr, if_true]

/-- The key of the study data a run writes is the extracted identifier. -/
theorem pipelineStudyData_uid (env : ArchiveEnv) (o : String) (st : Stores)
    (si : StudyInfo) (uid : String) :
    (pipelineStudyData env o st si uid).studyInstanceUID = uid := rfl

theorem upsertStudy_none (store : List StudyDoc) (sd : StudyData) (ln : String)
    (hfind : store.find?
      (fun d => d.data.studyInstanceUID == sd.studyInstanceUID) = none) :
    (upsertStudy store sd ln).2 = store ++ [(upsertStudy store sd ln).1] ∧
    (upsertStudy store sd ln).1.data = sd ∧
    (upsertStudy store sd ln).1.statusHistory.length = 1 := by
  unfold upsertStudy
  rw [hfind]
  exact ⟨rfl, rfl, rfl⟩

theorem upsertStudy_found (store : List StudyDoc) (sd : StudyData) (ln : String)
    (d0 : StudyDoc)
    (hfind : store.find?
      (fun d => d.data.studyInstanceUID == sd.studyInstanceUID) = some d0) :
    (upsertStudy store sd ln).1.data = sd ∧
    (upsertStudy store sd ln).1.statusHistory.length
        = d0.statusHistory.length + 1 ∧
    (upsertStudy store sd ln).2 = store.map
      (fun x => if x.data.studyInstanceUID == sd.studyInstanceUID
                then (upsertStudy store sd ln).1 else x) := by
  unfold upsertStudy
  rw [hfind]
  refine ⟨rfl, by simp, rfl⟩

/-- One successful run against a store with no aggregate for `uid` creates
exactly one, holding the run's `studyData` and a one-entry history. -/
theorem step_keyed_empty (c : RunCfg) (st : Stores) (si : StudyInfo)
    (uid : String)
    (hok : c.env.studySummary = Except.ok si)
    (huid : tagGet si.mainDicomTags "StudyInstanceUID" = some uid)
    (hne : uid ≠ "")
    (hempty : docsKeyed uid st = []) :
    ∃ d, docsKeyed uid (ingestOne c st) = [d] ∧
      d.data = pipelineStudyData c.env c.orthancStudyId st si uid ∧
      d.statusHistory.length = 1 := by
  have hempty' : st.studies.filter
      (fun d => d.data.studyInstanceUID == uid) = [] := hempty
  have hfind : st.studies.find?
      (fun d => d.data.studyInstanceUID ==
        (pipelineStudyData c.env c.orthancStudyId st si uid).studyInstanceUID)
      = none := by
    rw [pipelineStudyData_uid, find?_eq_head?_filter, hempty']
    rfl
  obtain ⟨hstore, hdata, hlen⟩ := upsertStudy_none st.studies
    (pipelineStudyData c.env c.orthancStudyId st si uid)
    (pipelineLab c.env st si uid).doc.name hfind
  refine ⟨_, ?_, hdata, hlen⟩
  rw [docsKeyed, ingestOne_success c st si uid hok huid hne, hstore,
      List.filter_append, hempty']
  have hp : ((upsertStudy st.studies
      (pipelineStudyData c.env c.orthancStudyId st si uid)
      (pipelineLab c.env st si uid).doc.name).1.data.studyInstanceUID == uid)
      = true := by
    rw [hdata, pipelineStudyData_uid]
    simp
  simp [List.filter_cons, hp]

/-- One successful run against a store holding exactly one aggregate for `uid`
replaces its denormalized data with the run's `studyData` and appends exactly
one history entry. -/
theorem step_keyed_one (c : RunCfg) (st : Stores) (si : StudyInfo)
    (uid : String) (d0 : StudyDoc)
    (hok : c.env.studySummary = Except.ok si)
    (huid : tagGet si.mainDicomTags "StudyInstanceUID" = some uid)
    (hne : uid ≠ "")
    (hone : docsKeyed uid st = [d0]) :
    ∃ d, docsKeyed uid (ingestOne c st) = [d] ∧
      d.data = pipelineStudyData c.env c.orthancStudyId st si uid ∧
      d.statusHistory.length = d0.statusHistory.length + 1 := by
  have hone' : st.studies.filter
      (fun d => d.data.studyInstanceUID == uid) = [d0] := hone
  have hfind : st.studies.find?
      (fun d => d.data.studyInstanceUID ==
        (pipelineStudyData c.env c.orthancStudyId st si uid).studyInstanceUID)
      = some d0 := by
    rw [pipelineStudyData_uid, find?_eq_head?_filter, hone']
    rfl
  obtain ⟨hdata, hlen, hstore⟩ := upsertStudy_found st.studies
    (pipelineStudyData c.env c.orthancStudyId st si uid)
    (pipelineLab c.env st si uid).doc.name d0 hfind
  refine ⟨_, ?_, hdata, hlen⟩
  rw [docsKeyed, ingestOne_success c st si uid hok huid hne, hstore,
      pipelineStudyData_uid]
  rw [filter_map_replace st.studies _ _
    (by rw [hdata, pipelineStudyData_uid]; simp), hone']
  rfl

/-! ## Claim C1 — re-ingestion and the workflow status -/

/-- C1, counterexample: a persisted aggregate for `1.2.3` whose status has
progressed to `report_finalized` is downgraded to `new_study_received` by a
re-ingestion of the same identifier — `Object.assign(dicomStudyDoc, studyData)`
copies `workflowStatus` along with the denormalized fields. -/
theorem c1_counterexample :
    exProgressedDoc.data.workflowStatus = "report_finalized" ∧
    ((processStableStudy exEnv "orth1" "req1"
        { patients := [], labs := [], studies := [exProgressedDoc],
          cache := [] }).stores.studies.map
      (fun d => d.data.workflowStatus)) = ["new_study_received"] := by
  refine ⟨by decide, by decide⟩

/-- C1, amended: a re-ingestion of an already-persisted study identifier
overwrites all denormalized metadata fields *including* `workflowStatus`,
which is unconditionally reset to the ingestion-controlled state chosen by the
run's instance count — a status that had progressed past the
ingestion-controlled states is downgraded, not preserved — while one
status-history entry is appended. -/
theorem c1_amended_reingestion_resets_status (c : RunCfg) (st : Stores)
    (si : StudyInfo) (uid : String) (d0 : StudyDoc)
    (hok : c.env.studySummary = Except.ok si)
    (huid : tagGet si.mainDicomTags "StudyInstanceUID" = some uid)
    (hne : uid ≠ "")
    (hone : docsKeyed uid st = [d0]) :
    ∃ d, docsKeyed uid (ingestOne c st) = [d] ∧
      d.data = pipelineStudyData c.env c.orthancStudyId st si uid ∧
      d.statusHistory.length = d0.statusHistory.length + 1 ∧
      d.data.workflowStatus =
        (if 0 < (discoverInstances c.env si.series).instancesArray.length
         then "new_study_received" else "new_metadata_only") := by
  obtain ⟨d, hd, hdata, hlen⟩ := step_keyed_one c st si uid d0 hok huid hne hone
  exact ⟨d, hd, hdata, hlen, by rw [hdata]; rfl⟩

/-- C1, witness: the amended theorem applied to the example archive and the
progressed aggregate. -/
theorem c1_witness :
    ∃ d, docsKeyed "1.2.3" (ingestOne exCfg1
        { patients := [], labs := [], studies := [exProgressedDoc],
          cache := [] }) = [d] ∧
      d.data = pipelineStudyData exCfg1.env exCfg1.orthancStudyId
        { patients := [], labs := [], studies := [exProgressedDoc],
          cache := [] } exStudyInfo "1.2.3" ∧
      d.statusHistory.length = exProgressedDoc.statusHistory.length + 1 ∧
      d.data.workflowStatus =
        (if 0 < (discoverInstances exCfg1.env exStudyInfo.series).instancesArray.length
         then "new_study_received" else "new_metadata_only") :=
  c1_amended_reingestion_resets_status exCfg1
    { patients := [], labs := [], studies := [exProgressedDoc], cache := [] }
    exStudyInfo "1.2.3" exProgressedDoc rfl (by decide) (by decide) (by decide)

/-! ## Claim C2 — idempotent upsert across repeated ingestions -/

theorem ingestAll_keyed_one (uid : String) (cfgs : List RunCfg) :
    ∀ (st : Stores) (d0 : StudyDoc),
    (∀ c ∈ cfgs, succeedsFor c uid) → docsKeyed uid st = [d0] →
    ∃ d, docsKeyed uid (ingestAll cfgs st) = [d] ∧
      d.statusHistory.length = d0.statusHistory.length + cfgs.length := by
  induction cfgs with
  | nil =>
    intro st d0 _ hone
    exact ⟨d0, hone, by simp⟩
  | cons c rest ih =>
    intro st d0 hall hone
    obtain ⟨si, hok, huid, hne⟩ := hall c (by simp)
    obtain ⟨d1, hd1, _, hlen1⟩ := step_keyed_one c st si uid d0 hok huid hne hone
    obtain ⟨d, hd, hlen⟩ := ih (ingestOne c st) d1
      (fun x hx => hall x (by simp [hx])) hd1
    refine ⟨d, hd, ?_⟩
    rw [hlen, hlen1]
    simp
    omega

/-- C2: starting from a store with no aggregate for `uid`, running the
pipeline `N = cfgs.length + 1` times sequentially — each run succeeding for
the same extracted study identifier — leaves exactly one aggregate keyed by
`uid`, with exactly `N` status-history entries and with denormalized fields
equal to the `studyData` computed by the last run. -/
theorem c2_idempotent_upsert (cfgs : List RunCfg) (c : RunCfg) (uid : String)
    (st : Stores) (si : StudyInfo)
    (hall : ∀ x ∈ cfgs, succeedsFor x uid)
    (hok : c.env.studySummary = Except.ok si)
    (huid : tagGet si.mainDicomTags "StudyInstanceUID" = some uid)
    (hne : uid ≠ "")
    (hempty : docsKeyed uid st = []) :
    ∃ d, docsKeyed uid (ingestAll (cfgs ++ [c]) st) = [d] ∧
      d.statusHistory.length = cfgs.length + 1 ∧
      d.data = pipelineStudyData c.env c.orthancStudyId
        (ingestAll cfgs st) si uid := by
  have hsplit : ingestAll (cfgs ++ [c]) st = ingestOne c (ingestAll cfgs st) := by
    rw [ingestAll, ingestAll, List.foldl_append]
    rfl
  cases cfgs with
  | nil =>
    obtain ⟨d, hd, hdata, hlen⟩ := step_keyed_empty c st si uid hok huid hne hempty
    exact ⟨d, hd, by simpa using hlen, hdata⟩
  | cons c0 rest =>
    obtain ⟨si0, hok0, huid0, hne0⟩ := hall c0 (by simp)
    obtain ⟨d1, hd1, _, hlen1⟩ :=
      step_keyed_empty c0 st si0 uid hok0 huid0 hne0 hempty
    obtain ⟨dmid, hdmid, hlenmid⟩ := ingestAll_keyed_one uid rest
      (ingestOne c0 st) d1 (fun x hx => hall x (by simp [hx])) hd1
    have hmid : docsKeyed uid (ingestAll (c0 :: rest) st) = [dmid] := hdmid
    obtain ⟨d, hd, hdata, hlen⟩ := step_keyed_one c (ingestAll (c0 :: rest) st)
      si uid dmid hok huid hne hmid
    rw [hsplit] at *
    refine ⟨d, hd, ?_, hdata⟩
    rw [hlen, hlenmid, hlen1]
    simp
    omega

/-- C2, witness: two sequential ingestions of study `1.2.3` starting from
empty stores. -/
theorem c2_witness :
    ∃ d, docsKeyed "1.2.3" (ingestAll ([exCfg1] ++ [exCfg2]) exStores0) = [d] ∧
      d.statusHistory.length = [exCfg1].length + 1 ∧
      d.data = pipelineStudyData exCfg2.env exCfg2.orthancStudyId
        (ingestAll [exCfg1] exStores0) exStudyInfo "1.2.3" :=
  c2_idempotent_upsert [exCfg1] exCfg2 "1.2.3" exStores0 exStudyInfo
    (by
      intro x hx
      rw [List.mem_singleton] at hx
      subst hx
      exact ⟨exStudyInfo, rfl, by decide, by decide⟩)
    rfl (by decide) (by decide) (by decide)

/-! ## Claim C9 — concurrency bound and FIFO admission -/

theorem pairwise_lt_id_inj (l : List QJob)
    (hs : l.Pairwise (fun a b => a.id < b.id)) :
    ∀ a ∈ l, ∀ b ∈ l, a.id = b.id → a = b := by
  induction l with
  | nil => intro a ha; simp at ha
  | cons h t ih =>
    intro a ha b hb heq
    rw [List.mem_cons] at ha hb
    rcases ha with rfl | ha <;> rcases hb with rfl | hb
    · rfl
    · exact absurd heq (by have := (List.pairwise_cons.mp hs).1 b hb; omega)
    · exact absurd heq (by have := (List.pairwise_cons.mp hs).1 a ha; omega)
    · exact ih (List.pairwise_cons.mp hs).2 a ha b hb heq

theorem find?_waiting_min (l : List QJob)
    (hs : l.Pairwise (fun a b => a.id < b.id)) (j : QJob)
    (hfind : l.find? (fun x => x.status == JobStatus.waiting) = some j) :
    ∀ a ∈ l, a.status = JobStatus.waiting → j.id ≤ a.id := by
  induction l with
  | nil => simp at hfind
  | cons hd t ih =>
    intro a ha hw
    by_cases hph : (hd.status == JobStatus.waiting) = true
    · rw [@List.find?_cons_of_pos QJob
        (fun x => x.status == JobStatus.waiting) hd t hph] at hfind
      have hj := Option.some.inj hfind
      subst hj
      rw [List.mem_cons] at ha
      rcases ha with rfl | ha
      · exact Nat.le_refl _
      · have := (List.pairwise_cons.mp hs).1 a ha
        omega
    · rw [@List.find?_cons_of_neg QJob
        (fun x => x.status == JobStatus.waiting) hd t hph] at hfind
      rw [List.mem_cons] at ha
      rcases ha with rfl | ha
      · exact absurd hw (by simpa using hph)
      · exact ih (List.pairwise_cons.mp hs).2 hfind a ha hw

theorem terminalStatus_props (outcome : Except String Unit) :
    (match outcome with
     | .ok _ => JobStatus.completed
     | .error _ => JobStatus.failed) ≠ JobStatus.active ∧
    (match outcome with
     | .ok _ => JobStatus.completed
     | .error _ => JobStatus.failed) ≠ JobStatus.waiting := by
  cases outcome <;>
    exact ⟨fun h => JobStatus.noConfusion h, fun h => JobStatus.noConfusion h⟩

theorem queueInv_initial : QueueInv initialQueue := by
  refine ⟨?_, ?_, ?_, ?_, ?_, ?_⟩ <;>
    simp [initialQueue, fifoAdmission, queueConcurrency]

theorem queueInv_addJob (s : QueueState) (h : QueueInv s) :
    QueueInv (addJob s) := by
  obtain ⟨hids, hsort, hnd, hpa, hpb, hfifo⟩ := h
  refine ⟨?_, ?_, hnd, ?_, hpb, ?_⟩
  · intro j hj
    simp only [addJob, List.mem_append, List.mem_singleton] at hj
    rcases hj with hj | rfl
    · have := hids j hj
      show j.id < s.nextJobId + 1
      omega
    · show s.nextJobId < s.nextJobId + 1
      omega
  · show List.Pairwise _ (s.jobs ++ [{ id := s.nextJobId, status := .waiting }])
    rw [List.pairwise_append]
    refine ⟨hsort, by simp, ?_⟩
    intro a ha b hb
    rw [List.mem_singleton] at hb
    subst hb
    exact hids a ha
  · intro i
    show i ∈ s.processing ↔ _
    rw [hpa i]
    constructor
    · rintro ⟨j, hj, hji, hja⟩
      exact ⟨j, by simp [addJob, List.mem_append, hj], hji, hja⟩
    · rintro ⟨j, hj, hji, hja⟩
      simp only [addJob, List.mem_append, List.mem_singleton] at hj
      rcases hj with hj | rfl
      · exact ⟨j, hj, hji, hja⟩
      · simp at hja
  · intro a ha b hb hab hwa
    simp only [addJob, List.mem_append, List.mem_singleton] at ha hb
    rcases hb with hb | rfl
    · rcases ha with ha | rfl
      · exact hfifo a ha b hb hab hwa
      · have h1 := hids b hb
        have h2 : s.nextJobId < b.id := hab
        omega
    · rfl

theorem startNextJob_eq (s : QueueState) (j : QJob)
    (hcap : s.processing.length < queueConcurrency)
    (hfind : s.jobs.find? (fun x => x.status == JobStatus.waiting) = some j) :
    startNextJob s =
      { jobs := s.jobs.map (fun x =>
          if x.id == j.id then { x with status := JobStatus.active } else x),
        nextJobId := s.nextJobId,
        processing := s.processing ++ [j.id] } := by
  unfold startNextJob
  rw [if_pos hcap, hfind]

theorem queueInv_startNext (s : QueueState) (h : QueueInv s) :
    QueueInv (startNextJob s) := by
  obtain ⟨hids, hsort, hnd, hpa, hpb, hfifo⟩ := h
  by_cases hcap : s.processing.length < queueConcurrency
  case neg =>
    unfold startNextJob
    rw [if_neg hcap]
    exact ⟨hids, hsort, hnd, hpa, hpb, hfifo⟩
  case pos =>
    cases hfind : s.jobs.find? (fun x => x.status == JobStatus.waiting) with
    | none =>
      unfold startNextJob
      rw [if_pos hcap, hfind]
      exact ⟨hids, hsort, hnd, hpa, hpb, hfifo⟩
    | some j =>
      rw [startNextJob_eq s j hcap hfind]
      have hjmem : j ∈ s.jobs := List.mem_of_find?_eq_some hfind
      have hjw : j.status = JobStatus.waiting := by
        have := List.find?_some hfind
        simpa using this
      have hinj := pairwise_lt_id_inj s.jobs hsort
      have hmin := find?_waiting_min s.jobs hsort j hfind
      have hupid : ∀ x : QJob, ((fun x =>
          if x.id == j.id then { x with status := JobStatus.active } else x) x).id
          = x.id := by
        intro x
        by_cases hx : (x.id == j.id) = true <;> simp [hx]
      have hnotin : j.id ∉ s.processing := by
        intro hin
        obtain ⟨j2, hj2, hj2id, hj2a⟩ := (hpa _).mp hin
        have he : j2 = j := hinj j2 hj2 j hjmem hj2id
        rw [he, hjw] at hj2a
        exact absurd hj2a (by decide)
      refine ⟨?_, ?_, ?_, ?_, ?_, ?_⟩
      · intro j' hj'
        rw [List.mem_map] at hj'
        obtain ⟨x, hx, rfl⟩ := hj'
        show _ < s.nextJobId
        rw [hupid x]
        exact hids x hx
      · exact List.Pairwise.map _
          (fun a b hab => by rw [hupid a, hupid b]; exact hab) hsort
      · show (s.processing ++ [j.id]).Nodup
        rw [List.nodup_append]
        exact ⟨hnd, List.nodup_singleton _,
          by rw [List.disjoint_singleton]; exact hnotin⟩
      · intro i
        show i ∈ s.processing ++ [j.id] ↔ _
        rw [List.mem_append, List.mem_singleton, hpa i]
        constructor
        · rintro (⟨j2, hj2, hid2, ha2⟩ | rfl)
          · have hne2 : (j2.id == j.id) = false := by
              rw [beq_eq_false_iff_ne]
              intro he
              have heq : j2 = j := hinj j2 hj2 j hjmem he
              rw [heq, hjw] at ha2
              exact absurd ha2 (by decide)
            refine ⟨_, List.mem_map_of_mem _ hj2, ?_, ?_⟩
            · rw [hupid j2]; exact hid2
            · simp only [hne2, Bool.false_eq_true, if_false]
              exact ha2
          · refine ⟨_, List.mem_map_of_mem _ hjmem, ?_, ?_⟩
            · rw [hupid j]
            · simp
        · rintro ⟨j', hj', hid', ha'⟩
          rw [List.mem_map] at hj'
          obtain ⟨x, hx, rfl⟩ := hj'
          by_cases hxe : (x.id == j.id) = true
          · right
            rw [← hid', hupid x]
            exact beq_iff_eq.mp hxe
          · left
            have hux : (if x.id == j.id then
                { x with status := JobStatus.active } else x) = x := by
              simp [hxe]
            refine ⟨x, hx, ?_, ?_⟩
            · rw [← hid', hupid x]
            · rw [hux] at ha'
              exact ha'
      · show (s.processing ++ [j.id]).length ≤ queueConcurrency
        rw [List.length_append]
        simp only [List.length_singleton]
        omega
      · intro a' ha' b' hb' hab hwa'
        rw [List.mem_map] at ha' hb'
        obtain ⟨xa, hxa, rfl⟩ := ha'
        obtain ⟨xb, hxb, rfl⟩ := hb'
        by_cases hxae : (xa.id == j.id) = true
        · have hsa : (if xa.id == j.id then
              { xa with status := JobStatus.active } else xa).status
              = JobStatus.active := by simp [hxae]
          rw [hwa'] at hsa
          exact absurd hsa (by decide)
        · have hua : (if xa.id == j.id then
              { xa with status := JobStatus.active } else xa) = xa := by
            simp [hxae]
          by_cases hxbe : (xb.id == j.id) = true
          · have hxbj : xb = j := hinj xb hxb j hjmem (beq_iff_eq.mp hxbe)
            have hxaid : xa.id < xb.id := by
              rw [hupid xa, hupid xb] at hab
              exact hab
            have hxaw : xa.status = JobStatus.waiting := by
              rw [hua] at hwa'
              exact hwa'
            have := hmin xa hxa hxaw
            rw [hxbj] at hxaid
            omega
          · have hub : (if xb.id == j.id then
                { xb with status := JobStatus.active } else xb) = xb := by
              simp [hxbe]
            rw [hub]
            exact hfifo xa hxa xb hxb
              (by rw [hupid xa, hupid xb] at hab; exact hab)
              (by rw [hua] at hwa'; exact hwa')

theorem finishJob_eq (s : QueueState) (jid : Nat) (outcome : Except String Unit)
    (hguard : (s.jobs.find? (fun x => x.id == jid && x.status == .active)).isSome
      = true) :
    finishJob s jid outcome =
      { jobs := s.jobs.map (fun x =>
          if x.id == jid then
            { x with
              status := match outcome with
                        | .ok _ => JobStatus.completed
                        | .error _ => JobStatus.failed,
              error := match outcome with
                       | .ok _ => x.error
                       | .error m => some m }
          else x),
        nextJobId := s.nextJobId,
        processing := s.processing.filter (fun i => i != jid) } := by
  unfold finishJob
  rw [hguard]
  rfl

theorem queueInv_finishJob (s : QueueState) (jid : Nat)
    (outcome : Except String Unit) (h : QueueInv s) :
    QueueInv (finishJob s jid outcome) := by
  obtain ⟨hids, hsort, hnd, hpa, hpb, hfifo⟩ := h
  cases hguard : (s.jobs.find? (fun x => x.id == jid && x.status == .active)).isSome with
  | false =>
    unfold finishJob
    rw [hguard]
    exact ⟨hids, hsort, hnd, hpa, hpb, hfifo⟩
  | true =>
    rw [finishJob_eq s jid outcome hguard]
    obtain ⟨j0, hj0m, hj0p⟩ := List.find?_isSome.mp hguard
    have hj0id : j0.id = jid := by
      simp only [Bool.and_eq_true, beq_iff_eq] at hj0p
      exact hj0p.1
    have hj0a : j0.status = JobStatus.active := by
      simp only [Bool.and_eq_true, beq_iff_eq] at hj0p
      exact hj0p.2
    have hinj := pairwise_lt_id_inj s.jobs hsort
    have hupid : ∀ x : QJob, ((fun x =>
        if x.id == jid then
          { x with
            status := match outcome with
                      | .ok _ => JobStatus.completed
                      | .error _ => JobStatus.failed,
            error := match outcome with
                     | .ok _ => x.error
                     | .error m => some m }
        else x) x).id = x.id := by
      intro x
      by_cases hx : (x.id == jid) = true <;> simp [hx]
    refine ⟨?_, ?_, ?_, ?_, ?_, ?_⟩
    · intro j' hj'
      rw [List.mem_map] at hj'
      obtain ⟨x, hx, rfl⟩ := hj'
      show _ < s.nextJobId
      rw [hupid x]
      exact hids x hx
    · exact List.Pairwise.map _
        (fun a b hab => by rw [hupid a, hupid b]; exact hab) hsort
    · exact List.Nodup.filter _ hnd
    · intro i
      show i ∈ s.processing.filter (fun i => i != jid) ↔ _
      rw [List.mem_filter, hpa i]
      constructor
      · rintro ⟨⟨j2, hj2, hid2, ha2⟩, hine⟩
        have hne2 : (j2.id == jid) = false := by
          rw [beq_eq_false_iff_ne]
          intro he
          rw [← hid2] at hine
          rw [he] at hine
          simp at hine
        refine ⟨_, List.mem_map_of_mem _ hj2, ?_, ?_⟩
        · rw [hupid j2]; exact hid2
        · simp only [hne2, Bool.false_eq_true, if_false]
          exact ha2
      · rintro ⟨j', hj', hid', ha'⟩
        rw [List.mem_map] at hj'
        obtain ⟨x, hx, rfl⟩ := hj'
        by_cases hxe : (x.id == jid) = true
        · exfalso
          simp only [hxe, if_true] at ha'
          exact (terminalStatus_props outcome).1 ha'
        · simp only [hxe, if_false] at ha' hid'
          refine ⟨⟨x, hx, hid', ha'⟩, ?_⟩
          rw [← hid']
          simpa using hxe
    · exact Nat.le_trans (List.length_filter_le _ _) hpb
    · intro a' ha' b' hb' hab hwa'
      rw [List.mem_map] at ha' hb'
      obtain ⟨xa, hxa, rfl⟩ := ha'
      obtain ⟨xb, hxb, rfl⟩ := hb'
      by_cases hxae : (xa.id == jid) = true
      · exfalso
        simp only [hxae, if_true] at hwa'
        exact (terminalStatus_props outcome).2 hwa'
      · simp only [hxae, if_false] at hwa'
        by_cases hxbe : (xb.id == jid) = true
        · exfalso
          have hxbj : xb = j0 := hinj xb hxb j0 hj0m
            (by rw [beq_iff_eq.mp hxbe, hj0id])
          have hxbw : xb.status = JobStatus.waiting := hfifo xa hxa xb hxb
            (by rw [hupid xa, hupid xb] at hab; exact hab) hwa'
          rw [hxbj, hj0a] at hxbw
          exact absurd hxbw (by decide)
        · simp only [hxbe, if_false]
          exact hfifo xa hxa xb hxb
            (by rw [hupid xa, hupid xb] at hab; exact hab) hwa'

theorem queueInv_step (s : QueueState) (e : QueueEvent) (h : QueueInv s) :
    QueueInv (queueStep s e) := by
  cases e with
  | enqueue => exact queueInv_addJob s h
  | startNext => exact queueInv_startNext s h
  | finish jid outcome => exact queueInv_finishJob s jid outcome h

theorem queueInv_foldl (evs : List QueueEvent) :
    ∀ (s : QueueState), QueueInv s → QueueInv (evs.foldl queueStep s) := by
  induction evs with
  | nil => intro s h; exact h
  | cons e rest ih => intro s h; exact ih _ (queueInv_step s e h)

theorem queueInv_runQueue (evs : List QueueEvent) : QueueInv (runQueue evs) :=
  queueInv_foldl evs initialQueue queueInv_initial

theorem activeCount_eq_processing (s : QueueState) (h : QueueInv s) :
    activeCount s = s.processing.length := by
  obtain ⟨hids, hsort, hnd, hpa, hpb, hfifo⟩ := h
  have h1 : (s.jobs.filter (fun j => j.status == JobStatus.active)).Pairwise
      (fun a b => a.id < b.id) := hsort.sublist (List.filter_sublist _)
  have h2 : ((s.jobs.filter (fun j => j.status == JobStatus.active)).map
      (fun j => j.id)).Pairwise (· < ·) :=
    List.Pairwise.map _ (fun a b hab => hab) h1
  have hAnd : ((s.jobs.filter (fun j => j.status == JobStatus.active)).map
      (fun j => j.id)).Nodup :=
    h2.imp (fun hab => Nat.ne_of_lt hab)
  have hmemiff : ∀ i, i ∈ (s.jobs.filter
      (fun j => j.status == JobStatus.active)).map (fun j => j.id)
      ↔ i ∈ s.processing := by
    intro i
    rw [List.mem_map, hpa i]
    constructor
    · rintro ⟨j, hj, rfl⟩
      rw [List.mem_filter] at hj
      exact ⟨j, hj.1, rfl, by simpa using hj.2⟩
    · rintro ⟨j, hj, hid, ha⟩
      exact ⟨j, by rw [List.mem_filter]; exact ⟨hj, by simp [ha]⟩, hid⟩
  have hperm := (List.perm_ext_iff_of_nodup hAnd hnd).mpr hmemiff
  have hlen := hperm.length_eq
  rw [activeCount, ← List.length_map _ (fun j => j.id)]
  exact hlen

/-- C9: in every state the queue can reach — any interleaving of enqueues
(including bursts beyond the ceiling), admissions and completions — the number
of jobs in the Active status never exceeds the configured concurrency ceiling
of 10, and jobs leave the Waiting status in arrival (FIFO) order: a job can
only have been admitted if every job with a smaller id has left Waiting as
well. -/
theorem c9_concurrency_bound_and_fifo (evs : List QueueEvent) :
    queueConcurrency = 10 ∧
    activeCount (runQueue evs) ≤ queueConcurrency ∧
    fifoAdmission (runQueue evs) := by
  have h := queueInv_runQueue evs
  refine ⟨rfl, ?_, h.fifo⟩
  rw [activeCount_eq_processing _ h]
  exact h.procBound

/-! ## Claim C10 — every admitted job resolves to one terminal status -/

/-- C10: resolving an admitted (Active) job's pipeline promise drives the job
to exactly one terminal status — `completed` when the pipeline returns,
`failed` with the error message recorded when it throws — and in both cases
the job's id leaves the `processing` set, freeing its concurrency slot. -/
theorem c10_admitted_job_terminal (s : QueueState) (jid : Nat)
    (outcome : Except String Unit) (j : QJob)
    (hj : j ∈ s.jobs) (hid : j.id = jid) (hact : j.status = JobStatus.active) :
    (∃ j' ∈ (finishJob s jid outcome).jobs, j'.id = jid ∧
        j'.status = (match outcome with
                     | .ok _ => JobStatus.completed
                     | .error _ => JobStatus.failed) ∧
        ∀ m, outcome = Except.error m → j'.error = some m) ∧
    jid ∉ (finishJob s jid outcome).processing :=
  finishJob_active_sets s jid outcome j hj hid hact

/-- C10, witness: one enqueued and admitted job, resolved successfully. -/
theorem c10_witness :
    (∃ j' ∈ (finishJob (runQueue [QueueEvent.enqueue, QueueEvent.startNext]) 1
        (Except.ok ())).jobs, j'.id = 1 ∧
        j'.status = JobStatus.completed ∧
        ∀ m, (Except.ok () : Except String Unit) = Except.error m →
          j'.error = some m) ∧
    1 ∉ (finishJob (runQueue [QueueEvent.enqueue, QueueEvent.startNext]) 1
        (Except.ok ())).processing :=
  c10_admitted_job_terminal (runQueue [QueueEvent.enqueue, QueueEvent.startNext])
    1 (Except.ok ()) { id := 1, status := JobStatus.active } (by decide) rfl rfl

end StableStudy
